import Mathlib

set_option maxRecDepth 10000

/-
Shallow embedding of the dockstring utility module (dockstring/utils.py).

The module is a thin wrapper around the RDKit cheminformatics toolkit plus
two small regular-expression parsers.  We embed:

  - the exception taxonomy (DockingError, KekulizeException, AssertionError);
  - an abstract molecule value carrying the data the wrapper inspects
    (atomic numbers, fragment decomposition, smiles serialization) together
    with the outcomes of the external force-field calls, which are opaque
    toolkit computations abstracted as per-molecule fields;
  - the in-place mutation discipline of the optimizers, rendered as explicit
    state passing: each embedded Python function returns, next to its result,
    the final state of the molecule object the caller passed in;
  - the two regular expressions (score_re and conf_re) as a faithful
    leftmost-greedy backtracking matcher over lists of characters, written in
    continuation-passing style so that the Python re engine ordering
    (greedy first, backtrack on failure of the continuation) is preserved;
  - Python float() on the matched numeric literals as exact rational values
    (the decimal literal is represented exactly; IEEE rounding is outside
    the scope of the parsing claims);
  - file reading as a function of the file content string, with
    readlines modelled as newline-keeping line splitting.

Character classes are modelled over ASCII, which covers every input the
claims mention.
-/

/-- Python exceptions distinguished by the module: the module-level
DockingError carrying a message, the toolkit KekulizeException that the
force-field fallback catches, and AssertionError from an assert statement. -/
inductive PyExc where
  | dockingError (msg : String)
  | kekulizeException
  | assertionError
  deriving DecidableEq

/-- An RDKit molecule as seen by the wrapper code.  The first four fields are
the observable data the wrapper reads (GetAtoms/GetAtomicNum, GetMolFrags,
conformer coordinates abstracted to a version counter, MolToSmiles output).
The remaining fields record the outcome of the external toolkit computations
on this molecule (parameter availability probes, sanitize/optimize results),
which the wrapper only branches on. -/
structure Mol where
  atoms : List Nat
  frags : List (List Nat)
  coords : Nat
  toSmiles : String
  mmffHasParams : Bool
  uffHasParams : Bool
  mmffKekulizeError : Bool
  mmffStatus : Nat
  uffStatus : Nat
  deriving DecidableEq

/-- Decidable equality for embedded Python results. -/
instance {ε α : Type} [DecidableEq ε] [DecidableEq α] : DecidableEq (Except ε α) := fun a b =>
  match a, b with
  | .ok x, .ok y =>
    if h : x = y then isTrue (by rw [h]) else isFalse (fun he => by cases he; exact h rfl)
  | .error x, .error y =>
    if h : x = y then isTrue (by rw [h]) else isFalse (fun he => by cases he; exact h rfl)
  | .ok _, .error _ => isFalse (fun he => by cases he)
  | .error _, .ok _ => isFalse (fun he => by cases he)

/-- Chem.GetMolFrags: the fragment decomposition computed by the toolkit. -/
def GetMolFrags (m : Mol) : List (List Nat) := m.frags

/-- Chem.MolToSmiles: canonical serialization computed by the toolkit. -/
def MolToSmiles (m : Mol) : String := m.toSmiles

/-- Chem.MMFFSanitizeMolecule: may raise the kekulization exception. -/
def MMFFSanitizeMolecule (m : Mol) : Except Unit Mol :=
  if m.mmffKekulizeError then .error () else .ok m

/-- Chem.MMFFOptimizeMolecule: returns a status code and mutates the
conformer of its argument in place (rendered as the updated value). -/
def MMFFOptimizeMolecule (m : Mol) (maxIters : Nat) : Nat × Mol :=
  (m.mmffStatus, { m with coords := m.coords + 1 + 0 * maxIters })

/-- Chem.UFFOptimizeMolecule: returns a status code and mutates the
conformer of its argument in place (rendered as the updated value). -/
def UFFOptimizeMolecule (m : Mol) (maxIters : Nat) : Nat × Mol :=
  (m.uffStatus, { m with coords := m.coords + 1 + 0 * maxIters })

/-- check_mol from utils.py, verbatim control flow: the first test is
all(atom.GetAtomicNum() != 0 for atom in mol.GetAtoms()), the second is
len(Chem.GetMolFrags(mol)) != 1 with the count in the message. -/
def check_mol (mol : Mol) : Except PyExc Unit :=
  let no_hs := mol.atoms.all (fun a => a != 0)
  if !no_hs then
    .error (.dockingError "Cannot process molecule: hydrogen atoms couldn\x27t be removed")
  else
    let fragments := GetMolFrags mol
    if fragments.length ≠ 1 then
      .error (.dockingError
        ("Incorrect number of molecular fragments (" ++ toString fragments.length ++ ")"))
    else
      .ok ()

/-- run_mmff94_opt from utils.py.  copy.copy(mol) means all in-place toolkit
mutations hit the copy; the second component of the result is the final state
of the molecule object the caller passed in. -/
def run_mmff94_opt (mol : Mol) (max_iters : Nat) : Except PyExc Mol × Mol :=
  let opt_mol := mol
  match MMFFSanitizeMolecule opt_mol with
  | .error _ => (.error .kekulizeException, mol)
  | .ok m1 =>
    let r := MMFFOptimizeMolecule m1 max_iters
    if r.1 ≠ 0 then (.error (.dockingError "MMFF optimization of ligand failed"), mol)
    else (.ok r.2, mol)

/-- run_uff_opt from utils.py, with the same state-passing convention. -/
def run_uff_opt (mol : Mol) (max_iters : Nat) : Except PyExc Mol × Mol :=
  let opt_mol := mol
  let r := UFFOptimizeMolecule opt_mol max_iters
  if r.1 ≠ 0 then (.error (.dockingError "UFF optimization of ligand failed"), mol)
  else (.ok r.2, mol)

/-- Result record of refine_mol_with_ff: the returned value or exception, the
final state of the argument molecule, and whether the UFF optimizer ran. -/
structure RefineOut where
  result : Except PyExc Mol
  molAfter : Mol
  uffRan : Bool

/-- refine_mol_with_ff from utils.py: MMFF94 when its parameters are
available, falling back to UFF only on the kekulization exception; UFF
directly when only its parameters are available; DockingError otherwise. -/
def refine_mol_with_ff (mol : Mol) (max_iters : Nat) : RefineOut :=
  if mol.mmffHasParams then
    match run_mmff94_opt mol max_iters with
    | (.error .kekulizeException, mol1) =>
      let r := run_uff_opt mol1 max_iters
      { result := r.1, molAfter := r.2, uffRan := true }
    | (res, mol1) => { result := res, molAfter := mol1, uffRan := false }
  else if mol.uffHasParams then
    let r := run_uff_opt mol max_iters
    { result := r.1, molAfter := r.2, uffRan := true }
  else
    { result := .error (.dockingError "Cannot optimize ligand: parameters not available"),
      molAfter := mol, uffRan := false }

/-- Global rdBase logging state toggled by the wrapper (rdApp.error level). -/
structure RDLog where
  errorEnabled : Bool
  deriving DecidableEq

/-- rdBase.DisableLog on the rdApp.error channel. -/
def DisableLogError (l : RDLog) : RDLog := { l with errorEnabled := false }

/-- rdBase.EnableLog on the rdApp.error channel. -/
def EnableLogError (l : RDLog) : RDLog := { l with errorEnabled := true }

/-- smiles_to_mol from utils.py.  Chem.MolFromSmiles is an external toolkit
call, passed in as a function.  The global logging state is threaded through
explicitly; note the source raises DockingError before re-enabling logging. -/
def smiles_to_mol (MolFromSmiles : String → Option Mol) (smiles : String)
    (verbose : Bool) (log : RDLog) : Except PyExc Mol × RDLog :=
  let log1 := if !verbose then DisableLogError log else log
  match MolFromSmiles smiles with
  | none => (.error (.dockingError "Could not parse SMILES string"), log1)
  | some mol =>
    let log2 := if !verbose then EnableLogError log1 else log1
    (.ok mol, log2)

/-- verify_docked_ligand from utils.py: compares the toolkit serializations
of docked and reference ligand. -/
def verify_docked_ligand (ref ligand : Mol) : Except PyExc Unit :=
  let ref_smiles := MolToSmiles ref
  let ligand_smiles := MolToSmiles ligand
  if ligand_smiles ≠ ref_smiles then
    .error (.dockingError ("Cannot recover original ligand: " ++ ref_smiles ++
      " (original ligand) != " ++ ligand_smiles ++ " (docked ligand)"))
  else
    .ok ()

/-- Character class [0-9] of the real-number pattern. -/
def isDigitC (c : Char) : Bool := '0' ≤ c && c ≤ '9'

/-- Character class \w (ASCII fragment: letters, digits, underscore). -/
def isWordC (c : Char) : Bool :=
  ('a' ≤ c && c ≤ 'z') || ('A' ≤ c && c ≤ 'Z') || isDigitC c || c == '_'

/-- Character class \s (ASCII fragment: space, tab, newline, cr, vt, ff). -/
def isSpaceC (c : Char) : Bool :=
  c == ' ' || c == '\t' || c == '\n' || c == '\x0d' || c == '\x0b' || c == '\x0c'

/-- Character class [-+] of the real-number pattern. -/
def isSignC (c : Char) : Bool := c == '-' || c == '+'

/-- Ordered alternative: the Python re engine tries the first branch and
falls back to the second only if the whole continuation fails on it. -/
def mfirst {α : Type} (a b : Option α) : Option α :=
  match a with
  | some x => some x
  | none => b

/-- Single-character class matcher in continuation-passing style. -/
def mcls {α : Type} (p : Char → Bool) (s : List Char) (k : List Char → Option α) : Option α :=
  match s with
  | [] => none
  | c :: cs => if p c then k cs else none

/-- Greedy star over a character class: consume as much as possible first,
backtracking one character at a time when the continuation fails. -/
def mstar {α : Type} (p : Char → Bool) : List Char → (List Char → Option α) → Option α
  | [], k => k []
  | c :: cs, k =>
    if p c then mfirst (mstar p cs k) (k (c :: cs)) else k (c :: cs)

/-- Greedy plus over a character class: one mandatory character then star. -/
def mplus {α : Type} (p : Char → Bool) (s : List Char) (k : List Char → Option α) : Option α :=
  mcls p s (fun r => mstar p r k)

/-- Greedy option over a character class: with the character first. -/
def moptCls {α : Type} (p : Char → Bool) (s : List Char) (k : List Char → Option α) : Option α :=
  mfirst (mcls p s k) (k s)

/-- Literal string matcher. -/
def mlit {α : Type} : List Char → List Char → (List Char → Option α) → Option α
  | [], s, k => k s
  | _ :: _, [], _ => none
  | l :: ls, c :: cs, k => if c == l then mlit ls cs k else none

/-- Optional exponent group (e[-+]?[0-9]+)? of the real-number pattern. -/
def mexpOpt {α : Type} (s : List Char) (k : List Char → Option α) : Option α :=
  mfirst
    (mcls (fun c => c == 'e') s (fun r1 =>
      moptCls isSignC r1 (fun r2 => mplus isDigitC r2 k)))
    (k s)

/-- The real-number pattern [-+]?[0-9]*\.?[0-9]+(e[-+]?[0-9]+)? from
utils.py, with the Python engine backtracking order. -/
def matchNumber {α : Type} (s : List Char) (k : List Char → Option α) : Option α :=
  moptCls isSignC s (fun r1 =>
    mstar isDigitC r1 (fun r2 =>
      moptCls (fun c => c == '.') r2 (fun r3 =>
        mplus isDigitC r3 (fun r4 => mexpOpt r4 k))))

/-- The text a matcher step consumed: the part of s that precedes the
remaining suffix r. -/
def consumedPart (s r : List Char) : List Char := s.take (s.length - r.length)

/-- End-of-match test for the dollar anchor without MULTILINE: position at
the end of the string, or just before a single trailing newline. -/
def dollarEnd (r : List Char) : Bool := r.isEmpty || r == ['\n']

/-- conf_re from utils.py applied with re.match:
the anchored pattern (key \w+) \s* = \s* (value REAL) \s* newline dollar,
returning the two named captures on success. -/
def confMatch (s : List Char) : Option (String × String) :=
  mplus isWordC s (fun r1 =>
    mstar isSpaceC r1 (fun r2 =>
      mcls (fun c => c == '=') r2 (fun r3 =>
        mstar isSpaceC r3 (fun r4 =>
          matchNumber r4 (fun r5 =>
            mstar isSpaceC r5 (fun r6 =>
              mcls (fun c => c == '\n') r6 (fun r7 =>
                if dollarEnd r7 then
                  some (String.mk (consumedPart s r1), String.mk (consumedPart r4 r5))
                else none)))))))

/-- Literal part of score_re: the fixed results marker. -/
def vinaMarker : List Char := "REMARK VINA RESULT:".toList

/-- score_re from utils.py attempted at the start of s: the literal marker,
then \s*, then the score capture (the real-number pattern).  Returns the
captured score text and the remainder of the input after the match. -/
def scoreMatchAt (s : List Char) : Option (String × List Char) :=
  mlit vinaMarker s (fun r1 =>
    mstar isSpaceC r1 (fun r2 =>
      matchNumber r2 (fun r3 => some (String.mk (consumedPart r2 r3), r3))))

/-- re.finditer scan: try a match at every position from left to right,
resuming after each successful match.  Fueled by the input length; every
step either consumes the match (nonempty: the marker literal is nonempty)
or advances one character. -/
def finditerScores : Nat → List Char → List String
  | 0, _ => []
  | _ + 1, [] => []
  | fuel + 1, c :: cs =>
    match scoreMatchAt (c :: cs) with
    | some (v, rest) => v :: finditerScores fuel rest
    | none => finditerScores fuel cs

/-- Decimal digit run to a natural number. -/
def digitsToNat (ds : List Char) : Nat :=
  ds.foldl (fun n c => 10 * n + (c.toNat - '0'.toNat)) 0

/-- Python float() on a string matched by the real-number pattern, as the
exact rational value of the decimal literal: the signed digit string
(integer and fraction digits) scaled by ten to the exponent minus the
number of fraction digits. -/
def pyFloat (s : List Char) : ℚ :=
  let sp : Int × List Char :=
    match s with
    | '-' :: t => (-1, t)
    | '+' :: t => (1, t)
    | t => (1, t)
  let ip := sp.2.takeWhile isDigitC
  let rest1 := sp.2.dropWhile isDigitC
  let fr : List Char × List Char :=
    match rest1 with
    | '.' :: t => (t.takeWhile isDigitC, t.dropWhile isDigitC)
    | t => ([], t)
  let mant : Int := sp.1 * Int.ofNat (digitsToNat (ip ++ fr.1))
  let ex : Int :=
    match fr.2 with
    | 'e' :: t =>
      match t with
      | '-' :: u => -(Int.ofNat (digitsToNat u))
      | '+' :: u => Int.ofNat (digitsToNat u)
      | u => Int.ofNat (digitsToNat u)
    | _ => 0
  let e10 : Int := ex - Int.ofNat fr.1.length
  match e10 with
  | .ofNat n => mkRat (mant * Int.ofNat (10 ^ n)) 1
  | .negSucc n => mkRat mant (10 ^ (n + 1))

/-- parse_scores_from_output from utils.py, as a function of the file
content: all score captures in file order, converted by float(). -/
def parse_scores_from_output (content : String) : List ℚ :=
  (finditerScores (content.toList.length + 1) content.toList).map (fun v => pyFloat v.toList)

/-- Worker for readlines: split into lines, each keeping its newline; a
final piece without a newline is kept when nonempty. -/
def readlinesGo : List Char → List Char → List (List Char)
  | [], acc => if acc.isEmpty then [] else [acc.reverse]
  | c :: cs, acc =>
    if c == '\n' then (acc.reverse ++ ['\n']) :: readlinesGo cs []
    else readlinesGo cs (c :: acc)

/-- Python file.readlines() on the file content (after universal-newline
translation the content contains only newline line separators). -/
def pyReadlines (content : List Char) : List (List Char) := readlinesGo content []

/-- Python dict assignment d[k] = v: overwrite in place on an existing key,
append on a new key (CPython preserves insertion order). -/
def pyInsert (d : List (String × ℚ)) (k : String) (v : ℚ) : List (String × ℚ) :=
  match d with
  | [] => [(k, v)]
  | (k0, v0) :: rest => if k0 = k then (k0, v) :: rest else (k0, v0) :: pyInsert rest k v

/-- Python dict lookup d[k], as an option. -/
def pyLookup (d : List (String × ℚ)) (k : String) : Option ℚ :=
  match d with
  | [] => none
  | (k0, v0) :: rest => if k0 = k then some v0 else pyLookup rest k

/-- One iteration of the parse_search_box_conf loop body: if the line
matches conf_re, assign d[key] = float(value), else leave d unchanged. -/
def confStep (d : List (String × ℚ)) (line : List Char) : List (String × ℚ) :=
  match confMatch line with
  | some kv => pyInsert d kv.1 (pyFloat kv.2.toList)
  | none => d

/-- parse_search_box_conf from utils.py, as a function of the file content:
fold the loop body over readlines, then assert len(d) == 6. -/
def parse_search_box_conf (content : String) : Except PyExc (List (String × ℚ)) :=
  let d := List.foldl confStep [] (pyReadlines content.toList)
  if d.length = 6 then .ok d else .error .assertionError

/-- Does s start with the literal l. -/
def litAt : List Char → List Char → Bool
  | [], _ => true
  | _ :: _, [] => false
  | l :: ls, c :: cs => c == l && litAt ls cs

/-- No suffix of s starts with the results marker. -/
def markerFree : List Char → Bool
  | [] => true
  | c :: cs => !litAt vinaMarker (c :: cs) && markerFree cs

/-- A well-formed search box configuration with only 5 lines. -/
def fiveLineConf : String :=
  "center_x = 1.0\ncenter_y = 2.0\ncenter_z = 3.0\nsize_x = 20.0\nsize_y = 20.0\n"

/-- Six well-formed lines, but the final line has no trailing newline. -/
def sixLineNoNewlineConf : String :=
  "center_x = 1.0\ncenter_y = 2.0\ncenter_z = 3.0\nsize_x = 20.0\nsize_y = 20.0\nsize_z = 20.0"

/-- Seven matching lines over six distinct keys: center_x appears twice. -/
def sevenLineDupConf : String :=
  "center_x = 1.0\ncenter_y = 2.0\ncenter_z = 3.0\nsize_x = 20.0\nsize_y = 20.0\nsize_z = 20.0\ncenter_x = 9.0\n"

/-- The docking output file of the spec example: exactly two result lines. -/
def vinaOutputExample : String :=
  "REMARK VINA RESULT:    -7.2  0.000  0.000\nREMARK VINA RESULT:    -6.8  1.200  1.500\n"

/-- A well-behaved two-carbon molecule used as a concrete instance. -/
def baseMol : Mol :=
  { atoms := [6, 6], frags := [[0, 1]], coords := 0, toSmiles := "CC",
    mmffHasParams := true, uffHasParams := true, mmffKekulizeError := false,
    mmffStatus := 0, uffStatus := 0 }

/-- A single-fragment molecule containing an explicit hydrogen atom
(atomic number 1) next to a carbon. -/
def hMol : Mol := { baseMol with atoms := [6, 1] }

/-- A single-fragment molecule containing a dummy atom (atomic number 0)
and no hydrogen. -/
def dummyAtomMol : Mol := { baseMol with atoms := [0, 6] }

/-- A molecule for which neither force field has parameters. -/
def noParamsMol : Mol := { baseMol with mmffHasParams := false, uffHasParams := false }

/-- Ordered alternative analysis: a successful mfirst comes from the first
branch, or the first branch failed and the second succeeded. -/
theorem mfirst_eq_some {α : Type} {a b : Option α} {x : α} (h : mfirst a b = some x) :
    a = some x ∨ (a = none ∧ b = some x) := by
  cases a with
  | some y => left; simpa [mfirst] using h
  | none => right; exact ⟨rfl, by simpa [mfirst] using h⟩

/-- A successful character-class step consumes exactly one admissible
character and hands the rest to the continuation. -/
theorem mcls_eq_some {α : Type} {p : Char → Bool} {s : List Char} {k : List Char → Option α}
    {a : α} (h : mcls p s k = some a) :
    ∃ c t, s = c :: t ∧ p c = true ∧ k t = some a := by
  cases s with
  | nil => simp [mcls] at h
  | cons c cs =>
    cases hp : p c with
    | true => exact ⟨c, cs, rfl, hp, by simpa [mcls, hp] using h⟩
    | false => simp [mcls, hp] at h

/-- A successful star consumes a prefix and hands a suffix to the
continuation. -/
theorem mstar_eq_some {α : Type} {p : Char → Bool} :
    ∀ {s : List Char} {k : List Char → Option α} {a : α},
      mstar p s k = some a → ∃ pre t, s = pre ++ t ∧ k t = some a := by
  intro s
  induction s with
  | nil => intro k a h; exact ⟨[], [], rfl, by simpa [mstar] using h⟩
  | cons c cs ih =>
    intro k a h
    cases hp : p c with
    | true =>
      simp only [mstar, hp, if_true] at h
      rcases mfirst_eq_some h with h1 | ⟨_, h2⟩
      · obtain ⟨pre, t, e, hk⟩ := ih h1
        exact ⟨c :: pre, t, by simp [e], hk⟩
      · exact ⟨[], c :: cs, rfl, h2⟩
    | false =>
      simp only [mstar, hp, Bool.false_eq_true, if_false] at h
      exact ⟨[], c :: cs, rfl, h⟩

/-- A successful plus consumes a prefix and hands a suffix to the
continuation. -/
theorem mplus_eq_some {α : Type} {p : Char → Bool} {s : List Char} {k : List Char → Option α}
    {a : α} (h : mplus p s k = some a) : ∃ pre t, s = pre ++ t ∧ k t = some a := by
  obtain ⟨c, t1, e1, _, h1⟩ := mcls_eq_some h
  obtain ⟨pre2, t2, e2, h2⟩ := mstar_eq_some h1
  exact ⟨c :: pre2, t2, by simp [e1, e2], h2⟩

/-- A successful optional class consumes a prefix and hands a suffix to the
continuation. -/
theorem moptCls_eq_some {α : Type} {p : Char → Bool} {s : List Char} {k : List Char → Option α}
    {a : α} (h : moptCls p s k = some a) : ∃ pre t, s = pre ++ t ∧ k t = some a := by
  rcases mfirst_eq_some h with h1 | ⟨_, h2⟩
  · obtain ⟨c, t, e, _, hk⟩ := mcls_eq_some h1
    exact ⟨[c], t, by simp [e], hk⟩
  · exact ⟨[], s, rfl, h2⟩

/-- A successful literal step consumes a prefix and hands a suffix to the
continuation. -/
theorem mlit_eq_some {α : Type} :
    ∀ (l : List Char) {s : List Char} {k : List Char → Option α} {a : α},
      mlit l s k = some a → ∃ pre t, s = pre ++ t ∧ k t = some a := by
  intro l
  induction l with
  | nil => intro s k a h; exact ⟨[], s, rfl, by simpa [mlit] using h⟩
  | cons x xs ih =>
    intro s k a h
    cases s with
    | nil => simp [mlit] at h
    | cons c cs =>
      cases hc : c == x with
      | true =>
        simp only [mlit, hc, if_true] at h
        obtain ⟨pre, t, e, hk⟩ := ih h
        exact ⟨c :: pre, t, by simp [e], hk⟩
      | false => simp [mlit, hc] at h

/-- A successful optional exponent consumes a prefix and hands a suffix to
the continuation. -/
theorem mexpOpt_eq_some {α : Type} {s : List Char} {k : List Char → Option α} {a : α}
    (h : mexpOpt s k = some a) : ∃ pre t, s = pre ++ t ∧ k t = some a := by
  rcases mfirst_eq_some h with h1 | ⟨_, h2⟩
  · obtain ⟨c, t1, e1, _, h1'⟩ := mcls_eq_some h1
    obtain ⟨pre2, t2, e2, h2'⟩ := moptCls_eq_some h1'
    obtain ⟨pre3, t3, e3, h3'⟩ := mplus_eq_some h2'
    exact ⟨c :: (pre2 ++ pre3), t3, by simp [e1, e2, e3], h3'⟩
  · exact ⟨[], s, rfl, h2⟩

/-- A successful number match consumes a prefix and hands a suffix to the
continuation. -/
theorem matchNumber_eq_some {α : Type} {s : List Char} {k : List Char → Option α} {a : α}
    (h : matchNumber s k = some a) : ∃ pre t, s = pre ++ t ∧ k t = some a := by
  obtain ⟨p1, t1, e1, h1⟩ := moptCls_eq_some h
  obtain ⟨p2, t2, e2, h2⟩ := mstar_eq_some h1
  obtain ⟨p3, t3, e3, h3⟩ := moptCls_eq_some h2
  obtain ⟨p4, t4, e4, h4⟩ := mplus_eq_some h3
  obtain ⟨p5, t5, e5, h5⟩ := mexpOpt_eq_some h4
  exact ⟨p1 ++ (p2 ++ (p3 ++ (p4 ++ p5))), t5, by simp [e1, e2, e3, e4, e5], h5⟩

/-- Appending on the left preserves a known last element. -/
theorem getLast?_append_keep {P t : List Char} {c : Char} (h : t.getLast? = some c) :
    (P ++ t).getLast? = some c := by
  have ht : t ≠ [] := by intro he; subst he; simp at h
  rw [List.getLast?_append_of_ne_nil P ht]; exact h

/-- Every line accepted by conf_re ends with a newline character: the
pattern requires a literal newline followed by the dollar anchor, which
only accepts the end of the line or one final trailing newline. -/
theorem confMatch_ends_newline {s : List Char} {kv : String × String}
    (h : confMatch s = some kv) : s.getLast? = some '\n' := by
  obtain ⟨p1, t1, e1, h1⟩ := mplus_eq_some h
  obtain ⟨p2, t2, e2, h2⟩ := mstar_eq_some h1
  obtain ⟨c3, t3, e3, _, h3⟩ := mcls_eq_some h2
  obtain ⟨p4, t4, e4, h4⟩ := mstar_eq_some h3
  obtain ⟨p5, t5, e5, h5⟩ := matchNumber_eq_some h4
  obtain ⟨p6, t6, e6, h6⟩ := mstar_eq_some h5
  obtain ⟨c7, t7, e7, hc7, h7⟩ := mcls_eq_some h6
  have hc7' : c7 = '\n' := by simpa using hc7
  have hde : dollarEnd t7 = true := by
    cases hde : dollarEnd t7 with
    | true => rfl
    | false => simp [hde] at h7
  have ht7 : t7 = [] ∨ t7 = ['\n'] := by
    cases t7 with
    | nil => exact Or.inl rfl
    | cons d ds =>
      right
      simp [dollarEnd] at hde
      simp [hde]
  have h6' : t6.getLast? = some '\n' := by
    subst hc7'
    rcases ht7 with ht | ht <;> subst ht <;> simp [e7]
  have h5' : t5.getLast? = some '\n' := by rw [e6]; exact getLast?_append_keep h6'
  have h4' : t4.getLast? = some '\n' := by rw [e5]; exact getLast?_append_keep h5'
  have h3' : t3.getLast? = some '\n' := by rw [e4]; exact getLast?_append_keep h4'
  have h2' : t2.getLast? = some '\n' := by
    rw [e3]
    exact getLast?_append_keep (P := [c3]) h3'
  have h1' : t1.getLast? = some '\n' := by rw [e2]; exact getLast?_append_keep h2'
  rw [e1]; exact getLast?_append_keep h1'

/-- A literal matcher fails on input that does not start with the literal. -/
theorem mlit_eq_none {α : Type} :
    ∀ (l s : List Char) (k : List Char → Option α), litAt l s = false → mlit l s k = none := by
  intro l
  induction l with
  | nil => intro s k h; simp [litAt] at h
  | cons x xs ih =>
    intro s k h
    cases s with
    | nil => rfl
    | cons c cs =>
      cases hc : c == x with
      | true =>
        have h' : litAt xs cs = false := by simpa [litAt, hc] using h
        simp [mlit, hc, ih cs k h']
      | false => simp [mlit, hc]

/-- The score pattern needs the results marker at the match position. -/
theorem scoreMatchAt_eq_none {s : List Char} (h : litAt vinaMarker s = false) :
    scoreMatchAt s = none := by
  unfold scoreMatchAt
  exact mlit_eq_none _ _ _ h

/-- The finditer scan yields nothing on text in which no position starts
with the results marker. -/
theorem finditerScores_eq_nil :
    ∀ (fuel : Nat) (s : List Char), markerFree s = true → finditerScores fuel s = [] := by
  intro fuel
  induction fuel with
  | zero => intro s _; rfl
  | succ n ih =>
    intro s h
    cases s with
    | nil => rfl
    | cons c cs =>
      simp only [markerFree, Bool.and_eq_true, Bool.not_eq_true'] at h
      simp [finditerScores, scoreMatchAt_eq_none h.1, ih cs h.2]

/-- Assigning a key makes it present with the assigned value. -/
theorem pyLookup_pyInsert (d : List (String × ℚ)) (k : String) (v : ℚ) :
    pyLookup (pyInsert d k v) k = some v := by
  induction d with
  | nil => simp [pyInsert, pyLookup]
  | cons kv0 rest ih =>
    obtain ⟨k0, v0⟩ := kv0
    by_cases h : k0 = k
    · simp [pyInsert, pyLookup, h]
    · simp [pyInsert, pyLookup, h, ih]

/-- Assigning an already-present key overwrites in place and does not grow
the dict: the entry count is the number of distinct keys. -/
theorem pyInsert_length_of_mem (d : List (String × ℚ)) (k : String) (v : ℚ)
    (h : (pyLookup d k).isSome = true) : (pyInsert d k v).length = d.length := by
  induction d with
  | nil => simp [pyLookup] at h
  | cons kv0 rest ih =>
    obtain ⟨k0, v0⟩ := kv0
    by_cases hk : k0 = k
    · simp [pyInsert, hk]
    · have h' : (pyLookup rest k).isSome = true := by simpa [pyLookup, hk] using h
      simp [pyInsert, hk, ih h']

/-- The molecule passed by the calling code is untouched by run_mmff94_opt. -/
theorem run_mmff94_opt_snd (mol : Mol) (iters : Nat) : (run_mmff94_opt mol iters).2 = mol := by
  cases h : mol.mmffKekulizeError with
  | true => simp [run_mmff94_opt, MMFFSanitizeMolecule, h]
  | false =>
    simp only [run_mmff94_opt, MMFFSanitizeMolecule, h, Bool.false_eq_true, if_false]
    split <;> rfl

/-- The molecule passed by the calling code is untouched by run_uff_opt. -/
theorem run_uff_opt_snd (mol : Mol) (iters : Nat) : (run_uff_opt mol iters).2 = mol := by
  simp only [run_uff_opt]
  split <;> rfl

/-- The molecule passed by the calling code is untouched by refine_mol_with_ff. -/
theorem refine_mol_with_ff_molAfter (mol : Mol) (iters : Nat) :
    (refine_mol_with_ff mol iters).molAfter = mol := by
  unfold refine_mol_with_ff
  by_cases h1 : mol.mmffHasParams
  · simp only [h1, if_true]
    rcases hr : run_mmff94_opt mol iters with ⟨res, molA⟩
    have hA : molA = mol := by
      have hsnd := run_mmff94_opt_snd mol iters
      rw [hr] at hsnd
      exact hsnd
    cases res with
    | error e =>
      cases e with
      | kekulizeException => simp [run_uff_opt_snd, hA]
      | dockingError msg => simpa using hA
      | assertionError => simpa using hA
    | ok m => simpa using hA
  · by_cases h2 : mol.uffHasParams
    · simp [h1, h2, run_uff_opt_snd]
    · simp [h1, h2]

/-- run_mmff94_opt raises the kekulization exception exactly when the
toolkit sanitize call does on this molecule. -/
theorem run_mmff94_opt_kekulize (mol : Mol) (iters : Nat) :
    (run_mmff94_opt mol iters).1 = .error .kekulizeException ↔ mol.mmffKekulizeError = true := by
  cases h : mol.mmffKekulizeError with
  | true => simp [run_mmff94_opt, MMFFSanitizeMolecule, h]
  | false =>
    simp only [run_mmff94_opt, MMFFSanitizeMolecule, h, Bool.false_eq_true, if_false]
    constructor
    · intro hcon
      by_cases hs : (MMFFOptimizeMolecule mol iters).1 ≠ 0 <;> simp [hs] at hcon
    · intro hcon
      cases hcon

/-- C1: the claim states check_mol raises DockingError on any molecule
containing an explicit hydrogen atom (atomic number 1), which is also what
the source comment and error message announce.  The code instead tests
GetAtomicNum() != 0: it accepts a molecule with an explicit hydrogen and
rejects one with a dummy atom (atomic number 0) under the hydrogen message.
This theorem evaluates check_mol at both inputs, exhibiting the slip. -/
theorem check_mol_accepts_explicit_hydrogen :
    (hMol.atoms.contains 1 = true ∧ hMol.frags.length = 1 ∧ check_mol hMol = .ok ())
    ∧ (dummyAtomMol.atoms.contains 1 = false ∧ dummyAtomMol.frags.length = 1
       ∧ check_mol dummyAtomMol
           = .error (.dockingError "Cannot process molecule: hydrogen atoms couldn\x27t be removed")) := by
  exact ⟨⟨rfl, rfl, by decide⟩, ⟨rfl, rfl, by decide⟩⟩

/-- C2: the UFF optimizer runs exactly when MMFF94 parameters are available
and the MMFF94 run raises the kekulization exception, or when MMFF94
parameters are unavailable while UFF parameters are available; and when
neither force field has parameters, refine_mol_with_ff returns the
DockingError about unavailable parameters. -/
theorem refine_mol_with_ff_fallback_policy (mol : Mol) (iters : Nat) :
    ((refine_mol_with_ff mol iters).uffRan = true ↔
      (mol.mmffHasParams = true ∧ (run_mmff94_opt mol iters).1 = .error .kekulizeException)
      ∨ (mol.mmffHasParams = false ∧ mol.uffHasParams = true))
    ∧ (mol.mmffHasParams = false → mol.uffHasParams = false →
        (refine_mol_with_ff mol iters).result
          = .error (.dockingError "Cannot optimize ligand: parameters not available")) := by
  constructor
  · cases h1 : mol.mmffHasParams with
    | true =>
      cases h2 : mol.mmffKekulizeError with
      | true =>
        have hrun : run_mmff94_opt mol iters = (.error .kekulizeException, mol) := by
          simp [run_mmff94_opt, MMFFSanitizeMolecule, h2]
        simp [refine_mol_with_ff, h1, hrun]
      | false =>
        have hkek : ¬ ((run_mmff94_opt mol iters).1 = .error .kekulizeException) := by
          rw [run_mmff94_opt_kekulize]
          simp [h2]
        rcases hr : run_mmff94_opt mol iters with ⟨res, molA⟩
        rw [hr] at hkek
        simp only at hkek
        cases res with
        | error e =>
          cases e with
          | kekulizeException => exact absurd rfl hkek
          | dockingError msg => simp [refine_mol_with_ff, h1, hr, hkek]
          | assertionError => simp [refine_mol_with_ff, h1, hr, hkek]
        | ok m => simp [refine_mol_with_ff, h1, hr]
    | false =>
      cases h3 : mol.uffHasParams with
      | true => simp [refine_mol_with_ff, h1, h3]
      | false => simp [refine_mol_with_ff, h1, h3]
  · intro hm hu
    simp [refine_mol_with_ff, hm, hu]

/-- C2 witness: a molecule for which neither force field has parameters
makes refine_mol_with_ff fail with the parameters-not-available error. -/
theorem refine_mol_with_ff_fallback_policy_witness :
    (refine_mol_with_ff noParamsMol 1000).result
      = .error (.dockingError "Cannot optimize ligand: parameters not available") :=
  (refine_mol_with_ff_fallback_policy noParamsMol 1000).2 rfl rfl

/-- C10: run_mmff94_opt, run_uff_opt and refine_mol_with_ff never modify
the molecule the caller passed in: the final state of the argument object
equals the input in every branch, including failing ones, because each
optimizer works on a copy.  The last conjunct shows the mutation does occur,
but on the returned copy only. -/
theorem ff_opt_preserves_input_mol :
    (∀ (mol : Mol) (iters : Nat), (run_mmff94_opt mol iters).2 = mol)
    ∧ (∀ (mol : Mol) (iters : Nat), (run_uff_opt mol iters).2 = mol)
    ∧ (∀ (mol : Mol) (iters : Nat), (refine_mol_with_ff mol iters).molAfter = mol)
    ∧ run_uff_opt baseMol 1000
        = (.ok { baseMol with coords := baseMol.coords + 1 + 0 * 1000 }, baseMol) := by
  exact ⟨run_mmff94_opt_snd, run_uff_opt_snd, refine_mol_with_ff_molAfter, by decide⟩

/-- C6: verify_docked_ligand raises DockingError exactly when the toolkit
serialization of the docked ligand differs from that of the reference, and
is silent on a molecule compared with an exact copy of itself. -/
theorem verify_docked_ligand_spec :
    (∀ ref ligand : Mol,
      (∃ msg, verify_docked_ligand ref ligand = .error (.dockingError msg))
        ↔ MolToSmiles ligand ≠ MolToSmiles ref)
    ∧ (∀ m : Mol, verify_docked_ligand m m = .ok ()) := by
  constructor
  · intro ref ligand
    by_cases h : MolToSmiles ligand = MolToSmiles ref
    · simp [verify_docked_ligand, h]
    · simp [verify_docked_ligand, h]
  · intro m
    simp [verify_docked_ligand]

/-- C4 counterexample: with verbose false and error logging initially
enabled, a failing parse makes smiles_to_mol raise DockingError while the
error logging is left disabled, not restored: the source raises before the
EnableLog call. -/
theorem smiles_to_mol_failure_leaves_log_disabled :
    (smiles_to_mol (fun _ => none) "C1CC1" false { errorEnabled := true }).1
      = .error (.dockingError "Could not parse SMILES string")
    ∧ (smiles_to_mol (fun _ => none) "C1CC1" false { errorEnabled := true }).2.errorEnabled
      = false :=
  ⟨rfl, rfl⟩

/-- C4 amended: with verbose false, smiles_to_mol re-enables error logging
on the success path; on the parse-failure path it raises DockingError with
error logging still disabled. -/
theorem smiles_to_mol_logging_amended (MolFromSmiles : String → Option Mol)
    (smiles : String) (log : RDLog) :
    ((∃ m, MolFromSmiles smiles = some m) →
      (smiles_to_mol MolFromSmiles smiles false log).2.errorEnabled = true)
    ∧ (MolFromSmiles smiles = none →
      (smiles_to_mol MolFromSmiles smiles false log).1
          = .error (.dockingError "Could not parse SMILES string")
      ∧ (smiles_to_mol MolFromSmiles smiles false log).2.errorEnabled = false) := by
  constructor
  · rintro ⟨m, hm⟩
    simp [smiles_to_mol, hm, DisableLogError, EnableLogError]
  · intro hn
    exact ⟨by simp [smiles_to_mol, hn], by simp [smiles_to_mol, hn, DisableLogError]⟩

/-- C4 witness: both amended branches at concrete parse outcomes. -/
theorem smiles_to_mol_logging_amended_witness :
    (smiles_to_mol (fun _ => some baseMol) "CC" false { errorEnabled := true }).2.errorEnabled
      = true
    ∧ (smiles_to_mol (fun _ => none) "QQ" false { errorEnabled := true }).1
      = .error (.dockingError "Could not parse SMILES string") :=
  ⟨(smiles_to_mol_logging_amended (fun _ => some baseMol) "CC" { errorEnabled := true }).1
      ⟨baseMol, rfl⟩,
   ((smiles_to_mol_logging_amended (fun _ => none) "QQ" { errorEnabled := true }).2 rfl).1⟩

/-- C3: parse_search_box_conf either succeeds with exactly 6 entries or
fails with an assertion error; it never raises DockingError; inserting a
non-matching line anywhere leaves the accumulated mapping unchanged
(non-matching lines are silently skipped); and the concrete 5-line
well-formed file is a fatal assertion failure. -/
theorem parse_search_box_conf_spec :
    (∀ content : String,
        (∃ d, parse_search_box_conf content = .ok d ∧ d.length = 6)
        ∨ parse_search_box_conf content = .error .assertionError)
    ∧ (∀ (content : String) (msg : String),
        parse_search_box_conf content ≠ .error (.dockingError msg))
    ∧ (∀ (l1 l2 : List (List Char)) (junk : List Char), confMatch junk = none →
        List.foldl confStep [] (l1 ++ junk :: l2) = List.foldl confStep [] (l1 ++ l2))
    ∧ parse_search_box_conf fiveLineConf = .error .assertionError := by
  refine ⟨?_, ?_, ?_, by decide⟩
  · intro content
    by_cases h : (List.foldl confStep [] (pyReadlines content.data)).length = 6
    · exact Or.inl ⟨_, by simp [parse_search_box_conf, String.toList, h], h⟩
    · exact Or.inr (by simp [parse_search_box_conf, String.toList, h])
  · intro content msg
    by_cases h : (List.foldl confStep [] (pyReadlines content.data)).length = 6 <;>
      simp [parse_search_box_conf, String.toList, h]
  · intro l1 l2 junk hj
    rw [List.foldl_append, List.foldl_append]
    simp [confStep, hj]

/-- C3 witness: skipping a concrete non-matching line. -/
theorem parse_search_box_conf_spec_witness :
    List.foldl confStep [] ([("a = 1\n").toList] ++ ("junk\n").toList :: [])
      = List.foldl confStep [] ([("a = 1\n").toList] ++ []) :=
  parse_search_box_conf_spec.2.2.1 [("a = 1\n").toList] [] ("junk\n").toList (by decide)

/-- C5: on the spec example file with the two result lines the parser
returns the two scores in file order, and on any content in which no
position starts with the results marker it returns the empty list. -/
theorem parse_scores_from_output_spec :
    parse_scores_from_output vinaOutputExample = [(-7.2 : ℚ), (-6.8 : ℚ)]
    ∧ (∀ content : String, markerFree content.toList = true →
        parse_scores_from_output content = []) := by
  constructor
  · have h : parse_scores_from_output vinaOutputExample = [mkRat (-72) 10, mkRat (-68) 10] := by
      decide
    rw [h, Rat.mkRat_eq_div, Rat.mkRat_eq_div]
    norm_num
  · intro content h
    unfold parse_scores_from_output
    rw [finditerScores_eq_nil _ _ h]
    rfl

/-- C5 witness: a concrete marker-free file yields the empty score list. -/
theorem parse_scores_from_output_spec_witness :
    parse_scores_from_output "no result lines\n" = [] :=
  parse_scores_from_output_spec.2 "no result lines\n" (by decide)

/-- C8: the conf_re pattern only accepts lines whose last character is a
newline, so a well-formed final line with no trailing newline is skipped:
on the concrete 6-line file whose last line lacks the newline, the size_z
key is absent and the parse is a fatal assertion failure. -/
theorem conf_line_requires_newline :
    (∀ (s : List Char) (kv : String × String), confMatch s = some kv →
        s.getLast? = some '\n')
    ∧ pyLookup (List.foldl confStep [] (pyReadlines sixLineNoNewlineConf.toList)) "size_z"
        = none
    ∧ parse_search_box_conf sixLineNoNewlineConf = .error .assertionError := by
  refine ⟨?_, by decide, by decide⟩
  intro s kv h
  exact confMatch_ends_newline h

/-- C8 witness: a concrete matching line ends with a newline. -/
theorem conf_line_requires_newline_witness :
    ("a = 1\n").toList.getLast? = some '\n' :=
  conf_line_requires_newline.1 ("a = 1\n").toList ("a", "1") (by decide)

/-- C9: assigning a key that is already present overwrites its value in
place without growing the mapping, so the exactly-6 assertion counts
distinct keys; the concrete 7-line file with center_x twice succeeds with
6 entries and maps center_x to the later value 9.0. -/
theorem parse_search_box_conf_duplicate_keys :
    (∀ (d : List (String × ℚ)) (k : String) (v : ℚ),
        pyLookup (pyInsert d k v) k = some v)
    ∧ (∀ (d : List (String × ℚ)) (k : String) (v : ℚ),
        (pyLookup d k).isSome = true → (pyInsert d k v).length = d.length)
    ∧ parse_search_box_conf sevenLineDupConf
        = .ok [("center_x", 9), ("center_y", 2), ("center_z", 3),
               ("size_x", 20), ("size_y", 20), ("size_z", 20)] := by
  exact ⟨pyLookup_pyInsert, pyInsert_length_of_mem, by decide⟩

/-- C9 witness: overwriting the only key of a one-entry dict keeps length 1. -/
theorem parse_search_box_conf_duplicate_keys_witness :
    (pyInsert [("a", (1 : ℚ))] "a" 2).length = [("a", (1 : ℚ))].length :=
  parse_search_box_conf_duplicate_keys.2.1 [("a", 1)] "a" 2 (by decide)
